import Mathlib

/-!
Shallow embedding of the merge/report-generation engine of the
CMPayrollProcessor repository (src/app/excel.py, src/app/classes.py),
together with theorems settling the specification claims.

Modelling conventions:
* Python strings are Lean `String`s, but every string operation the code
  performs (lower-casing, stripping, splitting, replacing) is re-implemented
  structurally over `String.data` so that the kernel can evaluate it.
  The data in scope is ASCII, so ASCII lower-casing is faithful.
* Python `datetime` values are abstracted to `Nat` time points ordered as the
  datetimes are; `strftime` is modelled as an injective rendering `toString`.
* Python floats are modelled as rationals `Rat`; every float the engine
  compares or sums comes from currency data, and the claims only exercise
  exact values, where float and rational arithmetic agree.
* Python cell values (openpyxl `cell.value`) are the union type `PyVal`.
* A Python `dict` is an insertion-ordered association list whose insert
  overwrites in place; dict keys of the lookup table are `PyKey`
  (Python `int` or `str` keys, as produced by the Excel parse and by
  `json.load` respectively).
* Fallible Python code (uncaught exceptions) returns `Except PyError`.
-/

/-- Exceptions that the embedded code can raise (uncaught in the source). -/
inductive PyError where
  | typeError
  | indexError
  | attributeError
deriving DecidableEq

/-- Keys of a Python `dict` as used for the lookup table: the Excel parse
stores `int` keys, while `json.load` always produces `str` keys. -/
inductive PyKey where
  | kint (n : Int)
  | kstr (s : String)
deriving DecidableEq

/-- openpyxl cell values: `None`, strings, ints, floats, datetimes
(datetimes abstracted to `Nat` time points). -/
inductive PyVal where
  | none
  | str (s : String)
  | int (n : Int)
  | float (q : Rat)
  | date (d : Nat)
deriving DecidableEq

/-- Log events relevant to the claims, in emission order.  Only the
diagnostically relevant events of the source's `logging` calls are kept;
purely informational messages are abstracted as `info`. -/
inductive LogEntry where
  | headerMismatch (sheet : String) (col : Nat) (expected actual : String)
  | missingCustomer (invoice : Int) (tech : String)
  | critical (msg : String)
  | error (msg : String)
  | info (msg : String)
deriving DecidableEq

def LogEntry.isHeaderMismatch : LogEntry → Bool
  | .headerMismatch _ _ _ _ => true
  | _ => false

/-! ### Python string primitives (ASCII-faithful, kernel-computable) -/

/-- ASCII lower-casing of one character (`str.lower` on the ASCII data in scope). -/
def lowerChar (c : Char) : Char :=
  if 65 ≤ c.toNat ∧ c.toNat ≤ 90 then Char.ofNat (c.toNat + 32) else c

/-- `str.lower()`. -/
def pyLower (s : String) : String := ⟨s.data.map lowerChar⟩

/-- `str.rstrip(" %")`: drop trailing characters belonging to the set. -/
def pyRstripSpacePct (s : String) : String :=
  ⟨(s.data.reverse.dropWhile (fun c => c = ' ' || c = '%')).reverse⟩

/-- `str.replace(".", "")`. -/
def pyDropDots (s : String) : String := ⟨s.data.filter (fun c => c ≠ '.')⟩

/-- `str.replace(" ", "_")`. -/
def pySpacesToUnderscores (s : String) : String :=
  ⟨s.data.map (fun c => if c = ' ' then '_' else c)⟩

/-- One step of whitespace splitting, consumed by `foldr`: whitespace starts a
new (possibly empty) word, other characters extend the current word. -/
def pyWordsStep (c : Char) (acc : List (List Char)) : List (List Char) :=
  if c.isWhitespace then [] :: acc
  else
    match acc with
    | [] => [[c]]
    | w :: ws => (c :: w) :: ws

/-- `str.split()` with no arguments: split on whitespace runs, dropping empties. -/
def pyWords (s : String) : List (List Char) :=
  (s.data.foldr pyWordsStep []).filter (fun w => w ≠ [])

/-- `str(x)` for cell values (`None` is handled separately by callers).
Dates are abstracted as the rendering of their time point. -/
def pyStr : PyVal → String
  | .none => "None"
  | .str s => s
  | .int n => toString n
  | .float q => toString q
  | .date d => toString d

/-- Digit value of an ASCII digit character. -/
def digitVal (c : Char) : Option Nat :=
  if 48 ≤ c.toNat ∧ c.toNat ≤ 57 then some (c.toNat - 48) else none

def parseDigitsAux : List Char → Nat → Option Nat
  | [], acc => some acc
  | c :: rest, acc =>
    match digitVal c with
    | some d => parseDigitsAux rest (acc * 10 + d)
    | none => none

/-- Parse a nonempty all-digit character run. -/
def parseDigits : List Char → Option Nat
  | [] => none
  | l => parseDigitsAux l 0

/-- Python `int(x)`: ints pass through, floats truncate toward zero, strings
parse as an optionally signed digit run (surrounding whitespace allowed),
anything else raises (`none`). -/
def pyInt : PyVal → Option Int
  | .int n => some n
  | .float q => some (q.num.sign * (q.num.natAbs / q.den : Nat))
  | .str s =>
    let t := (s.data.dropWhile Char.isWhitespace).reverse.dropWhile Char.isWhitespace |>.reverse
    match t with
    | '-' :: rest => (parseDigits rest).map (fun n => -(n : Int))
    | '+' :: rest => (parseDigits rest).map (fun n => (n : Int))
    | _ => (parseDigits t).map (fun n => (n : Int))
  | _ => Option.none

/-! ### Python dict over `PyKey` (the lookup table) -/

/-- The in-memory lookup table `self._lookup_table`: a Python dict whose keys
are ints (fresh Excel parse) or strings (after any JSON load), and whose
values are the customer-name cells (nullable strings). -/
abbrev PyDict := List (PyKey × Option String)

/-- `d[k] = v`: overwrite in place if the key is present, else append. -/
def pyDictInsert (d : PyDict) (k : PyKey) (v : Option String) : PyDict :=
  if d.any (fun kv => kv.1 = k) then
    d.map (fun kv => if kv.1 = k then (k, v) else kv)
  else d ++ [(k, v)]

/-- `d.get(k)` as `Option`: `some v` when the key is present with value `v`. -/
def pyDictGet (d : PyDict) (k : PyKey) : Option (Option String) :=
  (d.find? (fun kv => kv.1 = k)).map (fun kv => kv.2)

/-- `d.get(k, default)`. -/
def pyDictGetD (d : PyDict) (k : PyKey) (dflt : Option String) : Option String :=
  (pyDictGet d k).getD dflt

/-! ### Lookup Cache (`ExcelInterface._load_lookup_table` / `_parse_lookup_wb`) -/

/-- One row of the lookup workbook's `Sheet1`: the invoice-id cell and the
customer-name cell (customer names are nullable strings in the data). -/
abbrev LookupRow := PyVal × Option String

/-- One iteration of the row loop of `ExcelInterface._parse_lookup_wb`:
`int(row[0].value)` keys the customer-name cell; rows whose id cell cannot
convert (`ValueError`/`TypeError`) are logged and skipped. -/
def parseLookupStep (acc : PyDict × List LogEntry) (row : LookupRow) :
    PyDict × List LogEntry :=
  match pyInt row.1 with
  | some invoiceId => (pyDictInsert acc.1 (.kint invoiceId) row.2, acc.2)
  | none => (acc.1, acc.2 ++ [.critical "Failed to parse lookup worksheet row"])

/-- The row loop of `_parse_lookup_wb`, left-to-right over the sheet rows. -/
def parseLookupRows (rows : List LookupRow) : PyDict × List LogEntry :=
  rows.foldl parseLookupStep ([], [])

/-- `ExcelInterface._parse_lookup_wb` on the rows of `Sheet1` (the first row
is the header, skipped by `iter_rows(min_row=2)`). -/
def parse_lookup_wb (rows : List LookupRow) : PyDict × List LogEntry :=
  parseLookupRows (rows.drop 1)

/-- `json.dump` key coercion: JSON object keys are strings, so Python
serialises an `int` dict key `n` as the string `str(n)`. -/
def jsonKey : PyKey → PyKey
  | .kint n => .kstr (toString n)
  | .kstr s => .kstr s

/-- `json.dump` to `LookupTable.json` followed by `json.load` from it:
values survive, every key comes back as a string. -/
def jsonRoundTrip (d : PyDict) : PyDict := d.map (fun kv => (jsonKey kv.1, kv.2))

/-- The lookup source handed to `ExcelInterface._load_lookup_table`, by the
suffix dispatch of that method: an `.xlsx` workbook (whose `Sheet1` may be
missing), a decodable `.json` file (JSON object: string keys), a `.json`
file that fails to decode, or an unsupported suffix. -/
inductive LookupSource where
  | xlsx (sheet1 : Option (List LookupRow))
  | json (tbl : List (String × Option String))
  | jsonCorrupt
  | other (suffix : String)

/-- `ExcelInterface._load_lookup_table`: Excel sources are parsed by
`_parse_lookup_wb`, which then persists the table as JSON and immediately
re-loads it from that artifact (so the in-memory table is the JSON
round-trip of the parse); JSON sources load directly; everything else logs
critically and leaves the table empty. -/
def load_lookup_table : LookupSource → PyDict × List LogEntry
  | .xlsx Option.none => ([], [.critical "Lookup workbook missing Sheet1"])
  | .xlsx (some rows) =>
    let (tbl, logs) := parse_lookup_wb rows
    (jsonRoundTrip tbl, logs)
  | .json t => (t.map (fun kv => (.kstr kv.1, kv.2)), [])
  | .jsonCorrupt => ([], [.critical "Failed to load lookup master JSON"])
  | .other _ => ([], [.critical "Unsupported lookup file format"])

/-- Every key of a loaded lookup table is a string key: fresh Excel parses are
immediately round-tripped through JSON, and JSON objects only have string
keys.  (This is why integer-keyed lookups never hit.) -/
theorem load_lookup_table_keys_str (src : LookupSource) :
    ∀ kv ∈ (load_lookup_table src).1, ∃ s, kv.1 = PyKey.kstr s := by
  intro kv hkv
  cases src with
  | xlsx sheet1 =>
    cases sheet1 with
    | none => simp [load_lookup_table] at hkv
    | some rows =>
      simp only [load_lookup_table, jsonRoundTrip, List.mem_map] at hkv
      obtain ⟨kv', _, rfl⟩ := hkv
      cases kv'.1 with
      | kint n => exact ⟨toString n, rfl⟩
      | kstr s => exact ⟨s, rfl⟩
  | json t =>
    simp only [load_lookup_table, List.mem_map] at hkv
    obtain ⟨kv', _, rfl⟩ := hkv
    exact ⟨kv'.1, rfl⟩
  | jsonCorrupt => simp [load_lookup_table] at hkv
  | other s => simp [load_lookup_table] at hkv

/-- A `get` with an integer key on a loaded lookup table always misses. -/
theorem load_lookup_table_kint_get (src : LookupSource) (n : Int) :
    pyDictGet (load_lookup_table src).1 (.kint n) = Option.none := by
  unfold pyDictGet
  rw [List.find?_eq_none.mpr]
  · rfl
  · intro kv hkv
    obtain ⟨s, hs⟩ := load_lookup_table_keys_str src kv hkv
    simp [hs]

/-! ### Records (src/app/classes.py) -/

/-- `Invoice` dataclass.  Field types follow the data actually present:
`technician` is `None` on the source's aggregate/total row, `customer` is
nullable, monetary fields are currency amounts, datetimes are abstracted
time points. -/
structure Invoice where
  technician : Option String
  invoice_id : Int
  invoice : Int
  invoiced_on : Nat
  customer : Option String
  total : Rat
  split : String
  subtotal : Rat
  cost : Rat
  bonus : Rat
  pay_adj : Rat
  nc_total : Rat
  net_serv_vol : String
  gp : Rat
  business_unit : String
deriving DecidableEq

/-- `DirectPayrollAdjustment` dataclass. -/
structure DirectPayrollAdjustment where
  technician : Option String
  invoice_id : Int
  invoice : Int
  posted_on : Nat
  memo : String
  amount : Rat
deriving DecidableEq

/-- One element of the `combined` list in `_populate_tech_data`:
`Union[Invoice, DirectPayrollAdjustment]`. -/
inductive Entry where
  | inv (i : Invoice)
  | dpa (d : DirectPayrollAdjustment)
deriving DecidableEq

/-- `isinstance(item, Invoice)`. -/
def Entry.isInvoice : Entry → Bool
  | .inv _ => true
  | .dpa _ => false

/-- The sort key of `_populate_tech_data`:
`item.invoiced_on if isinstance(item, Invoice) else item.posted_on`. -/
def Entry.displayDate : Entry → Nat
  | .inv i => i.invoiced_on
  | .dpa d => d.posted_on

/-- `inv.memo if isinstance(inv, DirectPayrollAdjustment) else "---"`. -/
def Entry.displayMemo : Entry → String
  | .inv _ => "---"
  | .dpa d => d.memo

/-- `inv.amount if isinstance(inv, DirectPayrollAdjustment) else inv.gp`. -/
def Entry.displayAmount : Entry → Rat
  | .inv i => i.gp
  | .dpa d => d.amount

/-- `inv.invoice` (both record kinds carry the invoice number). -/
def Entry.invoiceNo : Entry → Int
  | .inv i => i.invoice
  | .dpa d => d.invoice

/-! ### Technician Grouper (`self._technician_dict`) -/

/-- The per-technician value of `self._technician_dict`:
the `"invoices"` and `"dpa"` lists. -/
structure TechData where
  invoices : List Invoice
  dpa : List DirectPayrollAdjustment
deriving DecidableEq

/-- `self._technician_dict`: an insertion-ordered Python dict from technician
name (nullable: the source's totals row has `None`) to that technician's
collected records. -/
abbrev TechDict := List (Option String × TechData)

/-- `self._technician_dict[inv.technician]["invoices"].append(inv)` on a
`defaultdict`: update in place when the key exists, else append a fresh
entry at the end. -/
def techDictAddInvoice (d : TechDict) (i : Invoice) : TechDict :=
  if d.any (fun kv => kv.1 = i.technician) then
    d.map (fun kv =>
      if kv.1 = i.technician then (kv.1, ⟨kv.2.invoices ++ [i], kv.2.dpa⟩) else kv)
  else d ++ [(i.technician, ⟨[i], []⟩)]

/-- `self._technician_dict[dpa.technician]["dpa"].append(dpa)`. -/
def techDictAddDpa (d : TechDict) (a : DirectPayrollAdjustment) : TechDict :=
  if d.any (fun kv => kv.1 = a.technician) then
    d.map (fun kv =>
      if kv.1 = a.technician then (kv.1, ⟨kv.2.invoices, kv.2.dpa ++ [a]⟩) else kv)
  else d ++ [(a.technician, ⟨[], [a]⟩)]

/-- The grouping performed by the two record loops of
`ExcelInterface._prepare_data`: all invoices in sheet order, then all
adjustments in sheet order. -/
def group_records (invs : List Invoice) (dpas : List DirectPayrollAdjustment) : TechDict :=
  dpas.foldl techDictAddDpa (invs.foldl techDictAddInvoice [])

/-- `d.get(name)` on the technician dict. -/
def techDictGet (d : TechDict) (name : Option String) : Option TechData :=
  (d.find? (fun kv => kv.1 = name)).map (fun kv => kv.2)

/-- `sum(inv.gp for inv in data["invoices"])` (Python `sum` folds from the left
starting at `0`). -/
def sumGp (invs : List Invoice) : Rat := invs.foldl (fun acc i => acc + i.gp) 0

/-- The eligibility helper `needs_to_be_created` inside
`ExcelInterface.run_merge`. -/
def needs_to_be_created (name : Option String) (data : TechData) : Bool :=
  name.isSome
    && (data.invoices.length > 0 || data.dpa.length > 0)
    && (sumGp data.invoices > 0 || data.dpa.length > 0)

/-- The sheets created by the technician loop of `run_merge`: one sheet per
dict entry passing `needs_to_be_created`, in dict (insertion) order (the
predicate is false on a `None` name, so only real names survive). -/
def created_sheets (d : TechDict) : List String :=
  d.filterMap (fun kv =>
    if needs_to_be_created kv.1 kv.2 then kv.1 else Option.none)

/-! ### Report Composer: the ledger of `_populate_tech_data` -/

/-- `sorted(combined, ...)`'s comparison: ascending by display date.  Python's
sort is stable; `List.mergeSort` with this total preorder is the unique
sorted permutation that keeps equal-key elements in input order, hence a
faithful model of `sorted`. -/
def entryLe (a b : Entry) : Bool := a.displayDate ≤ b.displayDate

/-- `combined = tech_invoices + tech_dpas`. -/
def combinedEntries (td : TechData) : List Entry :=
  td.invoices.map Entry.inv ++ td.dpa.map Entry.dpa

/-- `items_by_date = sorted(combined, key=...)`. -/
def items_by_date (td : TechData) : List Entry :=
  (combinedEntries td).mergeSort entryLe

/-- An association list over `Int` keys modelling the plain Python dict
`invoice_customer_lookup` (insert overwrites in place). -/
abbrev IntDict := List (Int × Option String)

def intDictInsert (d : IntDict) (k : Int) (v : Option String) : IntDict :=
  if d.any (fun kv => kv.1 = k) then
    d.map (fun kv => if kv.1 = k then (k, v) else kv)
  else d ++ [(k, v)]

def intDictGet (d : IntDict) (k : Int) : Option (Option String) :=
  (d.find? (fun kv => kv.1 = k)).map (fun kv => kv.2)

/-- `invoice_customer_lookup = {inv.invoice: inv.customer for inv in tech_invoices}`:
a dict comprehension, so later invoices overwrite earlier ones sharing the
same invoice number. -/
def invoice_customer_lookup (invs : List Invoice) : IntDict :=
  invs.foldl (fun d i => intDictInsert d i.invoice i.customer) []

/-- The customer resolution of the entry loop in `_populate_tech_data`:
`customer = invoice_customer_lookup.get(inv.invoice, None)` (absent key and
stored `None` are indistinguishable), then, when that is `None`,
`customer = self._lookup_table.get(inv.invoice, "")`. -/
def resolveCustomer (tbl : PyDict) (ic : IntDict) (n : Int) : Option String :=
  match intDictGet ic n with
  | some (some c) => some c
  | some Option.none => pyDictGetD tbl (.kint n) (some "")
  | Option.none => pyDictGetD tbl (.kint n) (some "")

/-- The zero-amount filter of the entry loop: skip invoice-type entries whose
amount (gross profit) is exactly zero; never skip adjustments. -/
def keepEntry (e : Entry) : Bool := !(e.isInvoice && e.displayAmount == 0)

/-- One written ledger row (the five cells passed to `append_row`, with the
customer cell kept nullable: Python writes `None` into the cell when the
resolved customer is `None`). -/
structure LedgerRow where
  invoice : Int
  dateStr : String
  customer : Option String
  memo : String
  amount : Rat
deriving DecidableEq

/-- `dt.strftime("%m/%d/%Y")`, abstracted to an injective rendering of the
abstract time point. -/
def formatDate (d : Nat) : String := toString d

/-- The row built for one retained entry. -/
def mkLedgerRow (tbl : PyDict) (ic : IntDict) (e : Entry) : LedgerRow :=
  { invoice := e.invoiceNo
    dateStr := formatDate e.displayDate
    customer := resolveCustomer tbl ic e.invoiceNo
    memo := e.displayMemo
    amount := e.displayAmount }

/-- The warning emitted for one retained entry when the resolved customer is
the empty string (`if customer == "": logging.warning(...)`; note Python's
`None == ""` is false, so a `None` customer does not warn). -/
def warnOf (tbl : PyDict) (ic : IntDict) (tech : String) (e : Entry) : Option LogEntry :=
  if resolveCustomer tbl ic e.invoiceNo = some "" then
    some (.missingCustomer e.invoiceNo tech)
  else Option.none

/-- The entry loop of `_populate_tech_data` over `items_by_date`: skip
zero-amount invoices, resolve the customer, emit the missing-customer
warning, append the row. -/
def ledgerLoop (tbl : PyDict) (ic : IntDict) (tech : String) :
    List Entry → List LedgerRow × List LogEntry
  | [] => ([], [])
  | e :: rest =>
    if keepEntry e then
      let (rows, logs) := ledgerLoop tbl ic tech rest
      (mkLedgerRow tbl ic e :: rows,
        ((warnOf tbl ic tech e).toList) ++ logs)
    else ledgerLoop tbl ic tech rest

/-- The ledger rows and warnings produced for one technician. -/
def ledger_rows (tbl : PyDict) (tech : String) (td : TechData) :
    List LedgerRow × List LogEntry :=
  ledgerLoop tbl (invoice_customer_lookup td.invoices) tech (items_by_date td)

/-- The rows of `ledgerLoop` are exactly the retained entries mapped to rows. -/
theorem ledgerLoop_rows (tbl : PyDict) (ic : IntDict) (tech : String)
    (l : List Entry) :
    (ledgerLoop tbl ic tech l).1 = (l.filter keepEntry).map (mkLedgerRow tbl ic) := by
  induction l with
  | nil => rfl
  | cons e rest ih =>
    by_cases h : keepEntry e = true
    · simp [ledgerLoop, h, ih]
    · simp only [Bool.not_eq_true] at h
      simp [ledgerLoop, h, ih]

/-- The warnings of `ledgerLoop` are exactly those of the retained entries. -/
theorem ledgerLoop_logs (tbl : PyDict) (ic : IntDict) (tech : String)
    (l : List Entry) :
    (ledgerLoop tbl ic tech l).2
      = (l.filter keepEntry).filterMap (warnOf tbl ic tech) := by
  induction l with
  | nil => rfl
  | cons e rest ih =>
    by_cases h : keepEntry e = true
    · cases hw : warnOf tbl ic tech e with
      | none => simp [ledgerLoop, h, ih, hw, List.filterMap_cons]
      | some w => simp [ledgerLoop, h, ih, hw, List.filterMap_cons]
    · simp only [Bool.not_eq_true] at h
      simp [ledgerLoop, h, ih]

/-! ### Record Parser (`ExcelInterface._prepare_data`), raw layer -/

/-- The header-cell-to-field-key normalization of `_prepare_data`:
`cell.value.lower().rstrip(" %").replace(".", "").replace(" ", "_")`. -/
def pyKeyNorm (s : String) : String :=
  pySpacesToUnderscores (pyDropDots (pyRstripSpacePct (pyLower s)))

/-- The same normalization applied to a raw header cell:
`cell.value.lower()` raises `AttributeError` unless the value is a string. -/
def pyKeyNormVal : PyVal → Except PyError String
  | .str s => .ok (pyKeyNorm s)
  | _ => .error .attributeError

/-- The field names of the `Invoice` dataclass, in declaration order. -/
def invoiceFields : List String :=
  ["technician", "invoice_id", "invoice", "invoiced_on", "customer", "total",
   "split", "subtotal", "cost", "bonus", "pay_adj", "nc_total",
   "net_serv_vol", "gp", "business_unit"]

/-- The raw keyword dict `data` assembled for one row. -/
abbrev RawRecord := List (String × PyVal)

def strDictInsert (d : RawRecord) (k : String) (v : PyVal) : RawRecord :=
  if d.any (fun kv => kv.1 = k) then
    d.map (fun kv => if kv.1 = k then (k, v) else kv)
  else d ++ [(k, v)]

/-- `for j, cell in enumerate(row): data[header[j]] = cell.value`: positional
assembly of the row dict; `header[j]` raises `IndexError` when the row is
wider than the header. -/
def buildDataDict (keys : List String) (cells : List PyVal) :
    Except PyError RawRecord :=
  if cells.length > keys.length then .error .indexError
  else .ok ((keys.zip cells).foldl (fun d kv => strDictInsert d kv.1 kv.2) [])

/-- Python-set equality of key lists. -/
def setEqStr (a b : List String) : Bool :=
  a.all (fun k => b.contains k) && b.all (fun k => a.contains k)

/-- `Invoice(**data)`: a dataclass call succeeds exactly when the keyword set
equals the field set (a missing or unexpected keyword raises `TypeError`);
no type checking is performed on the values. -/
def mkRawInvoice (keys : List String) (cells : List PyVal) :
    Except PyError RawRecord := do
  let d ← buildDataDict keys cells
  if setEqStr (d.map (fun kv => kv.1)) invoiceFields then pure d
  else .error .typeError

/-- `DirectPayrollAdjustment(*[cell.value for cell in row])`: the positional
dataclass call succeeds exactly when the row has 6 cells; the (unused) row
dict is still assembled first and can raise `IndexError`. -/
def mkRawDpa (keys : List String) (cells : List PyVal) :
    Except PyError (List PyVal) := do
  let _ ← buildDataDict keys cells
  if cells.length = 6 then pure cells else .error .typeError

/-- The invoice loop of `_prepare_data`: the first sheet row is normalized
into field keys, every following row is assembled and passed to the
`Invoice` constructor.  An empty sheet yields no records. -/
def prepInvoices : List (List PyVal) → Except PyError (List RawRecord)
  | [] => .ok []
  | hdr :: dataRows => do
    let keys ← hdr.mapM pyKeyNormVal
    dataRows.mapM (mkRawInvoice keys)

/-- The adjustment loop of `_prepare_data` (header row keyed by
`row[0].row == 1`). -/
def prepDpas : List (List PyVal) → Except PyError (List (List PyVal))
  | [] => .ok []
  | hdr :: dataRows => do
    let keys ← hdr.mapM pyKeyNormVal
    dataRows.mapM (mkRawDpa keys)

/-- `ws.delete_cols(idx)` (1-based column index). -/
def deleteCol (idx : Nat) (row : List PyVal) : List PyVal :=
  row.take (idx - 1) ++ row.drop idx

/-! ### Header validation (`ExcelInterface.validate_header_row`) -/

/-- The `_norm` normalizer of `validate_header_row` applied to a string:
`" ".join(text.strip().split()).lower()`. -/
def normString (s : String) : String :=
  ⟨(List.intercalate [' '] (pyWords s)).map lowerChar⟩

/-- `_norm` applied to a raw cell: `None` becomes `""`, anything else is
`str`-rendered first. -/
def pyNormCell : PyVal → String
  | .none => ""
  | v => normString (pyStr v)

/-- The mismatch scan of `validate_header_row`: compare normalized expected
and actual cells pairwise and report (only) the first mismatch, with its
1-based column index and both raw texts. -/
def firstMismatch (sheetLabel : String) : List (String × PyVal) → Nat → List LogEntry
  | [], _ => []
  | (exp, act) :: rest, i =>
    if pyNormCell act = normString exp then firstMismatch sheetLabel rest (i + 1)
    else [.headerMismatch sheetLabel i exp (pyStr act)]

/-- `ExcelInterface.validate_header_row`: reads exactly `len(expected)` cells
of the header row (absent cells read as `None`), logs the first normalized
mismatch and returns; it never raises. -/
def validate_header_row (expected : List String) (hdrCells : List PyVal)
    (sheetLabel : String) : List LogEntry :=
  let actual := (List.range expected.length).map (fun i => hdrCells.getD i .none)
  firstMismatch sheetLabel (expected.zip actual) 1

/-- The expected `Invoices` header of `_assert_sheet_integrity`. -/
def invExpectedHeader : List String :=
  ["Technician", "Invoice Id", "Invoice", "Invoiced On", "Customer", "Total",
   "Split %", "Subtotal", "Cost", "Bonus", "Pay Adj.", "NC Total",
   "Net Serv. Vol.", "GP", "Business Unit"]

/-- The expected `Direct Payroll Adjustments` header. -/
def dpaExpectedHeader : List String :=
  ["Technician", "Invoice Id", "Invoice", "Posted On", "Memo", "Amount"]

/-- `ExcelInterface._assert_sheet_integrity`: validate both headers (log-only). -/
def assert_sheet_integrity (invHdr dpaHdr : List PyVal) : List LogEntry :=
  validate_header_row invExpectedHeader invHdr "Invoices"
    ++ validate_header_row dpaExpectedHeader dpaHdr "Direct Payroll Adjustments"

/-! ### The `__init__` pipeline of `ExcelInterface` -/

/-- The main workbook: the two required sheets, each a list of rows of raw
cell values (a missing sheet is `none`). -/
structure Workbook where
  invoices : Option (List (List PyVal))
  dpa : Option (List (List PyVal))

/-- The state built by a successful `__init__`. -/
structure RawState where
  lookupTable : PyDict
  rawInvoices : List RawRecord
  rawDpas : List (List PyVal)
deriving DecidableEq

/-- Outcome of `ExcelInterface.__init__`: the state when construction
succeeded, the log emitted up to the end (or up to the uncaught exception),
and the exception if one escaped. -/
structure InitOutcome where
  state : Option RawState
  logs : List LogEntry
  err : Option PyError
deriving DecidableEq

/-- `ExcelInterface.__init__`: `_load_lookup_table`, `_connect_main_wb`,
`_prepare_data`, `_assert_sheet_integrity`, in that order.  A missing sheet
is logged by `_connect_main_wb` and then crashes `_prepare_data` with
`AttributeError` (the attribute was never set); `_prepare_data` deletes the
junk columns (P of Invoices, G of Adjustments) before decoding; header
validation runs only after all records are decoded and never aborts. -/
def run_init (src : LookupSource) (wb : Workbook) : InitOutcome :=
  let tbl := (load_lookup_table src).1
  let logs1 := (load_lookup_table src).2
  match wb.invoices with
  | Option.none =>
    ⟨Option.none, logs1 ++ [.critical "Invoices sheet not found"], some .attributeError⟩
  | some invSheet =>
    match wb.dpa with
    | Option.none =>
      ⟨Option.none, logs1 ++ [.critical "Direct Payroll Adjustments sheet not found"],
        some .attributeError⟩
    | some dpaSheet =>
      let invS := invSheet.map (deleteCol 16)
      let dpaS := dpaSheet.map (deleteCol 7)
      match prepInvoices invS with
      | .error e => ⟨Option.none, logs1, some e⟩
      | .ok rawInvs =>
        match prepDpas dpaS with
        | .error e => ⟨Option.none, logs1, some e⟩
        | .ok rawDpas =>
          ⟨some ⟨tbl, rawInvs, rawDpas⟩,
            logs1 ++ assert_sheet_integrity (invS.headD []) (dpaS.headD []),
            Option.none⟩

/-! ### Sheet cells and Excel display semantics (for the master mirror) -/

/-- A cross-sheet cell coordinate, as interpolated by `_get_cell_ref`
(`'{tech_name}'!{column}{row}`). -/
structure CellRef where
  sheet : String
  col : Nat
  row : Nat
deriving DecidableEq

/-- A written cell: blank, a literal string or number, the guarded reference
formula `=IF(ref="","",ref)` of `_get_cell_ref`, or the detail total
formula `=SUM(E3:E{last})`. -/
inductive CellVal where
  | blank
  | s (v : String)
  | num (q : Rat)
  | fIfBlankRef (r : CellRef)
  | fSumAmounts (fromRow toRow : Nat)
deriving DecidableEq

def CellVal.isFormula : CellVal → Bool
  | .fIfBlankRef _ => true
  | .fSumAmounts _ _ => true
  | _ => false

/-- Writing the resolved customer into a cell: Python `None` leaves the cell
blank, a string (possibly empty) is stored as-is. -/
def custCell : Option String → CellVal
  | Option.none => .blank
  | some v => .s v

/-- The five literal cells `append_row` writes to the detail sheet for one
ledger row. -/
def rowCells (r : LedgerRow) : List CellVal :=
  [.num r.invoice, .s r.dateStr, custCell r.customer, .s r.memo, .num r.amount]

def titleRowCells (tech : String) : List CellVal :=
  [.s tech, .blank, .blank, .blank, .blank]

def labelRowCells : List CellVal :=
  [.s "Invoice", .s "Invoiced On", .s "Customer Name", .s "Memo", .s "Amount"]

def totalRowCells (lastDataRow : Nat) : List CellVal :=
  [.s "", .s "", .s "", .s "Total:", .fSumAmounts 3 lastDataRow]

/-- The detail sheet written by `_populate_tech_data` for one technician:
title row (row 1), label row (row 2), one row per retained ledger entry
(rows 3 ..), and the total row. -/
def detail_sheet (tbl : PyDict) (tech : String) (td : TechData) :
    List (List CellVal) :=
  let rows := (ledger_rows tbl tech td).1
  [titleRowCells tech, labelRowCells]
    ++ rows.map rowCells
    ++ [totalRowCells (2 + rows.length)]

/-- The mirrored master row for the detail data row at (1-based) row number
`detailRowNo`: the first five cells are the guarded reference formulas of
`_get_cell_ref`, one per column A..E. -/
def mirrorRowCells (tech : String) (detailRowNo : Nat) : List CellVal :=
  (List.range 5).map (fun j => .fIfBlankRef ⟨tech, j + 1, detailRowNo⟩)

/-- The master-sheet rows mirrored for one technician's retained entries: the
`k`-th retained entry (0-based) sits at detail row `3 + k`. -/
def master_mirror_rows (tbl : PyDict) (tech : String) (td : TechData) :
    List (List CellVal) :=
  (List.range (ledger_rows tbl tech td).1.length).map
    (fun k => mirrorRowCells tech (k + 3))

/-- A displayed Excel value: text or number. -/
inductive XVal where
  | xstr (s : String)
  | xnum (q : Rat)
deriving DecidableEq

/-- Excel's `ref = ""` test: true for an empty cell and for an empty string. -/
def excelBlank : CellVal → Bool
  | .blank => true
  | .s v => v = ""
  | _ => false

/-- The displayed value of a bare cross-sheet reference: Excel renders a
reference to a blank cell as the number 0 (the behaviour `_get_cell_ref`
guards against).  The formula cases do not occur in the mirrored range,
whose targets are all literal detail cells. -/
def refValue : CellVal → XVal
  | .blank => .xnum 0
  | .s v => .xstr v
  | .num q => .xnum q
  | .fIfBlankRef _ => .xnum 0
  | .fSumAmounts _ _ => .xnum 0

/-- 1-based cell access in a sheet modelled as a row list. -/
def cellAt (sheet : List (List CellVal)) (row col : Nat) : CellVal :=
  ((sheet.get? (row - 1)).bind (fun r => r.get? (col - 1))).getD .blank

/-- Evaluation of the guarded reference `=IF(ref="","",ref)` against the
referenced sheet. -/
def evalIfBlankRef (sheet : List (List CellVal)) (r : CellRef) : XVal :=
  let c := cellAt sheet r.row r.col
  if excelBlank c then .xstr "" else refValue c

/-- `LEN(x) > 0` on a displayed value (numbers always render nonempty). -/
def xLenPos : XVal → Bool
  | .xstr s => s ≠ ""
  | .xnum _ => true

/-- `LEN(TRIM(x & "")) = 0`: true exactly for all-space text (Excel `TRIM`
strips spaces). -/
def xTrimEmpty : XVal → Bool
  | .xstr s => s.data.all (fun c => c = ' ')
  | .xnum _ => false

/-- The conditional-formatting rule `IS_BLANK_RULE`
(`AND(LEN($A3)>0, LEN(TRIM($C3&""))=0)`) applied to the displayed values of
the invoice-number column (A) and customer-name column (C) of one row. -/
def isBlankRuleFires (a c : XVal) : Bool := xLenPos a && xTrimEmpty c

/-! ### The save/cleanup tail of `ExcelInterface.run_merge` -/

inductive SaveOutcome where
  | ok
  | permissionError
  | otherError
deriving DecidableEq

inductive UnlinkOutcome where
  | ok
  | failure
deriving DecidableEq

/-- Observable outcome of the tail of `run_merge`: the returned flag, whether
the cleanup block was reached and whether `unlink` was attempted, whether
an exception escaped, and the log. -/
structure MergeFinish where
  flag : Bool
  cleanupReached : Bool
  unlinkAttempted : Bool
  raised : Bool
  logs : List LogEntry
deriving DecidableEq

/-- The tail of `ExcelInterface.run_merge`: save the workbook (both failure
kinds are caught, logged, and only clear the flag — deliberately not
returning, so cleanup still runs), then, when the lookup-path file exists,
try to unlink it, catching and logging any failure. -/
def run_merge_finish (save : SaveOutcome) (lookupExists : Bool)
    (unlink : UnlinkOutcome) : MergeFinish :=
  let flagAndLogs :=
    match save with
    | .ok => (true, [LogEntry.info "Workbook saved"])
    | .permissionError => (false, [LogEntry.critical "Permission denied when saving workbook"])
    | .otherError => (false, [LogEntry.critical "Error saving workbook"])
  let flag := flagAndLogs.1
  let slogs := flagAndLogs.2
  if lookupExists then
    match unlink with
    | .ok =>
      { flag := flag, cleanupReached := true, unlinkAttempted := true,
        raised := false, logs := slogs }
    | .failure =>
      { flag := flag, cleanupReached := true, unlinkAttempted := true,
        raised := false,
        logs := slogs ++ [.error "Failed to remove temporary lookup file"] }
  else
    { flag := flag, cleanupReached := true, unlinkAttempted := false,
      raised := false, logs := slogs }

/-! ### Shared helper lemmas -/

/-- `sorted` leaves an already-sorted `combined` list unchanged (used to
evaluate `items_by_date` on concrete inputs). -/
theorem items_by_date_of_sorted {td : TechData}
    (h : (combinedEntries td).Pairwise (fun a b => entryLe a b = true)) :
    items_by_date td = combinedEntries td :=
  List.mergeSort_of_sorted h

/-- Evaluation form of `ledger_rows` for inputs whose combined list is
already date-sorted. -/
theorem ledger_rows_of_sorted (tbl : PyDict) (tech : String) (td : TechData)
    (h : (combinedEntries td).Pairwise (fun a b => entryLe a b = true)) :
    ledger_rows tbl tech td
      = ledgerLoop tbl (invoice_customer_lookup td.invoices) tech (combinedEntries td) := by
  unfold ledger_rows
  rw [items_by_date_of_sorted h]

/-- Neither lookup loading nor parsing ever emits a header-mismatch log. -/
theorem load_lookup_table_no_header_mismatch (src : LookupSource) :
    ((load_lookup_table src).2).all (fun l => !l.isHeaderMismatch) = true := by
  have hfold : ∀ (rows : List LookupRow) (acc : PyDict × List LogEntry),
      acc.2.all (fun l => !l.isHeaderMismatch) = true →
      ((rows.foldl parseLookupStep acc).2).all (fun l => !l.isHeaderMismatch) = true := by
    intro rows
    induction rows with
    | nil => intro acc h; exact h
    | cons r rest ih =>
      intro acc h
      apply ih
      unfold parseLookupStep
      cases pyInt r.1 with
      | none => simp_all [LogEntry.isHeaderMismatch]
      | some v => exact h
  cases src with
  | xlsx sheet1 =>
    cases sheet1 with
    | none => decide
    | some rows =>
      simp only [load_lookup_table, parse_lookup_wb, parseLookupRows]
      exact hfold _ _ rfl
  | json t => simp [load_lookup_table]
  | jsonCorrupt => decide
  | other s => rfl

/-! ### Claim C1 -/

/-- A two-row lookup workbook: a header row and one data row mapping invoice
id 5 to a customer name. -/
def acmeLookupRows : List LookupRow :=
  [(.str "Invoice Id", some "Customer Name"), (.int 5, some "Acme Plumbing")]

/-- C1: the claim fails on the code and the code contradicts its own intent
(the JSON artifact is documented as a faster equivalent of the Excel
source).  Loading the Excel lookup source directly yields the integer-keyed
mapping `{5: "Acme Plumbing"}`; converting to the JSON fast-reload artifact
and re-pointing the load at it — exactly what `_parse_lookup_wb` does —
leaves the in-memory table string-keyed (`{"5": "Acme Plumbing"}`), which
is a different mapping, and integer-keyed lookups into it miss. -/
theorem C1_cache_roundtrip_changes_mapping :
    (parse_lookup_wb acmeLookupRows).1 = [(.kint 5, some "Acme Plumbing")]
    ∧ (load_lookup_table (.xlsx (some acmeLookupRows))).1
        = [(.kstr "5", some "Acme Plumbing")]
    ∧ (load_lookup_table (.xlsx (some acmeLookupRows))).1
        ≠ (parse_lookup_wb acmeLookupRows).1
    ∧ pyDictGet (load_lookup_table (.xlsx (some acmeLookupRows))).1 (.kint 5)
        = Option.none := by
  refine ⟨by decide, by decide, by decide, by decide⟩

/-! ### Claim C3 -/

/-- An invoice with a blank (None) customer field whose invoice number 5 is
present in the lookup source. -/
def blankCustInvoice : Invoice :=
  { technician := some "Tech One", invoice_id := 900, invoice := 5,
    invoiced_on := 10, customer := Option.none, total := 100,
    split := "100.00%", subtotal := 90, cost := 40, bonus := 0, pay_adj := 0,
    nc_total := 0, net_serv_vol := "50.00", gp := 50,
    business_unit := "CMHEATING HVAC RESI SERV" }

/-- C3: the claim's second precedence level is dead in the code.  With the
lookup table loaded from an Excel source mapping invoice 5 to a name, an
invoice with a blank customer field and number 5 should (per the claim)
resolve to the lookup value; the code instead writes the empty string and
logs the missing-customer warning, because the in-memory table ends up
string-keyed (JSON round-trip) while `inv.invoice` is an integer. -/
theorem C3_lookup_fallback_never_hits :
    (ledger_rows (load_lookup_table (.xlsx (some acmeLookupRows))).1 "Tech One"
        ⟨[blankCustInvoice], []⟩).1
      = [{ invoice := 5, dateStr := "10", customer := some "",
           memo := "---", amount := 50 }]
    ∧ (ledger_rows (load_lookup_table (.xlsx (some acmeLookupRows))).1 "Tech One"
        ⟨[blankCustInvoice], []⟩).2
      = [.missingCustomer 5 "Tech One"]
    ∧ pyDictGet (parse_lookup_wb acmeLookupRows).1 (.kint 5)
        = some (some "Acme Plumbing") := by
  rw [ledger_rows_of_sorted _ _ _ (by decide)]
  refine ⟨by decide, by decide, by decide⟩

/-! ### Claim C8 -/

/-- C8: the cleanup attempt of `run_merge` is reached on every save outcome
(both save exception kinds are caught and only clear the returned flag);
the unlink is attempted exactly when the lookup-path file exists,
independently of the save outcome; an unlink failure is logged and nothing
ever propagates out of the tail. -/
theorem C8_cleanup_regardless_of_save (save : SaveOutcome) (lookupExists : Bool)
    (unlink : UnlinkOutcome) :
    (run_merge_finish save lookupExists unlink).cleanupReached = true
    ∧ (run_merge_finish save lookupExists unlink).raised = false
    ∧ (run_merge_finish save lookupExists unlink).unlinkAttempted = lookupExists
    ∧ (run_merge_finish save lookupExists unlink).flag
        = decide (save = SaveOutcome.ok)
    ∧ (lookupExists = true → unlink = UnlinkOutcome.failure →
        LogEntry.error "Failed to remove temporary lookup file"
          ∈ (run_merge_finish save lookupExists unlink).logs) := by
  cases save <;> cases lookupExists <;> cases unlink <;>
    simp [run_merge_finish]

/-- Witness for C8 at a concrete input: a permission-denied save with an
existing lookup file and a failing unlink still reaches cleanup, attempts
the unlink, raises nothing, and logs the unlink failure. -/
theorem C8_cleanup_regardless_of_save_witness :
    (run_merge_finish .permissionError true .failure).cleanupReached = true
    ∧ (run_merge_finish .permissionError true .failure).raised = false
    ∧ (run_merge_finish .permissionError true .failure).unlinkAttempted = true
    ∧ (run_merge_finish .permissionError true .failure).flag
        = decide (SaveOutcome.permissionError = SaveOutcome.ok)
    ∧ (true = true → UnlinkOutcome.failure = UnlinkOutcome.failure →
        LogEntry.error "Failed to remove temporary lookup file"
          ∈ (run_merge_finish .permissionError true .failure).logs) :=
  C8_cleanup_regardless_of_save .permissionError true .failure

/-! ### Claim C4 -/

theorem entryLe_trans (a b c : Entry) (hab : entryLe a b = true)
    (hbc : entryLe b c = true) : entryLe a c = true := by
  simp only [entryLe, decide_eq_true_eq] at *
  omega

theorem entryLe_total (a b : Entry) : (entryLe a b || entryLe b a) = true := by
  simp only [entryLe, Bool.or_eq_true, decide_eq_true_eq]
  omega

/-- A filtered list is pairwise related when the predicate forces the
relation between any two satisfying elements. -/
theorem pairwise_filter_of_pred {α : Type} {p : α → Bool} {R : α → α → Prop}
    (h : ∀ a b, p a = true → p b = true → R a b) (l : List α) :
    (l.filter p).Pairwise R := by
  induction l with
  | nil => simp
  | cons x xs ih =>
    by_cases hx : p x = true
    · rw [List.filter_cons_of_pos hx, List.pairwise_cons]
      exact ⟨fun y hy => h x y hx (List.of_mem_filter hy), ih⟩
    · rw [List.filter_cons_of_neg (by simpa using hx)]
      exact ih

/-- C4: the merged ledger is sorted ascending by display date (invoice date
for invoices, posted date for adjustments), and the sort is stable: for
every date, the entries carrying that date appear in exactly their original
relative order in the combined input list (invoices in sheet order, then
adjustments in sheet order). -/
theorem C4_ledger_sorted_and_stable (td : TechData) :
    (items_by_date td).Pairwise (fun a b => a.displayDate ≤ b.displayDate)
    ∧ ∀ d : Nat,
        (items_by_date td).filter (fun e => e.displayDate == d)
          = (combinedEntries td).filter (fun e => e.displayDate == d) := by
  constructor
  · have h := List.sorted_mergeSort entryLe_trans entryLe_total (combinedEntries td)
    exact h.imp (fun hab => by simpa [entryLe] using hab)
  · intro d
    have hc : ((combinedEntries td).filter (fun e => e.displayDate == d)).Pairwise
        (fun a b => entryLe a b = true) := by
      refine pairwise_filter_of_pred (fun a b ha hb => ?_) _
      have ha' : a.displayDate = d := by simpa using ha
      have hb' : b.displayDate = d := by simpa using hb
      simp [entryLe, ha', hb']
    have hstable := List.sublist_mergeSort entryLe_trans entryLe_total hc
      (List.filter_sublist (combinedEntries td))
    have hfil : ((combinedEntries td).filter (fun e => e.displayDate == d)).Sublist
        ((items_by_date td).filter (fun e => e.displayDate == d)) := by
      have h2 := hstable.filter (fun e => e.displayDate == d)
      have h3 : ((combinedEntries td).filter (fun e => e.displayDate == d)).filter
            (fun e => e.displayDate == d)
          = (combinedEntries td).filter (fun e => e.displayDate == d) :=
        List.filter_eq_self.mpr (fun a ha => (List.mem_filter.mp ha).2)
      rwa [h3] at h2
    have hperm : ((items_by_date td).filter (fun e => e.displayDate == d)).Perm
        ((combinedEntries td).filter (fun e => e.displayDate == d)) :=
      (List.mergeSort_perm (combinedEntries td) entryLe).filter _
    exact (hfil.eq_of_length hperm.length_eq.symm).symm

/-! ### Claim C5 -/

/-- Appending one invoice to the technician dict preserves, or extends by the
new name, the key list. -/
theorem keys_techDictAddInvoice (d : TechDict) (i : Invoice) :
    (techDictAddInvoice d i).map (fun kv => kv.1) = d.map (fun kv => kv.1)
    ∨ ((techDictAddInvoice d i).map (fun kv => kv.1)
        = d.map (fun kv => kv.1) ++ [i.technician]
      ∧ i.technician ∉ d.map (fun kv => kv.1)) := by
  unfold techDictAddInvoice
  by_cases h : d.any (fun kv => kv.1 = i.technician) = true
  · left
    rw [if_pos h, List.map_map]
    refine List.map_congr_left (fun kv _ => ?_)
    by_cases hkv : kv.1 = i.technician <;> simp [hkv]
  · right
    rw [if_neg h]
    constructor
    · simp
    · intro hmem
      obtain ⟨kv, hkv, heq⟩ := List.mem_map.mp hmem
      exact h (List.any_eq_true.mpr ⟨kv, hkv, by simp [heq]⟩)

theorem keys_techDictAddDpa (d : TechDict) (a : DirectPayrollAdjustment) :
    (techDictAddDpa d a).map (fun kv => kv.1) = d.map (fun kv => kv.1)
    ∨ ((techDictAddDpa d a).map (fun kv => kv.1)
        = d.map (fun kv => kv.1) ++ [a.technician]
      ∧ a.technician ∉ d.map (fun kv => kv.1)) := by
  unfold techDictAddDpa
  by_cases h : d.any (fun kv => kv.1 = a.technician) = true
  · left
    rw [if_pos h, List.map_map]
    refine List.map_congr_left (fun kv _ => ?_)
    by_cases hkv : kv.1 = a.technician <;> simp [hkv]
  · right
    rw [if_neg h]
    constructor
    · simp
    · intro hmem
      obtain ⟨kv, hkv, heq⟩ := List.mem_map.mp hmem
      exact h (List.any_eq_true.mpr ⟨kv, hkv, by simp [heq]⟩)

/-- Folding invoices into the technician dict preserves key distinctness. -/
theorem foldl_addInvoice_keys_nodup (l : List Invoice) :
    ∀ d : TechDict, (d.map (fun kv => kv.1)).Nodup →
    ((l.foldl techDictAddInvoice d).map (fun kv => kv.1)).Nodup := by
  induction l with
  | nil => intro d hd; simpa using hd
  | cons i rest ih =>
    intro d hd
    rw [List.foldl_cons]
    refine ih _ ?_
    rcases keys_techDictAddInvoice d i with h | ⟨h, hnm⟩
    · rwa [h]
    · rw [h]
      exact List.Nodup.append hd (List.nodup_singleton _)
        (fun x hx hx' => by
          rw [List.mem_singleton] at hx'
          exact hnm (hx' ▸ hx))

/-- Folding adjustments into the technician dict preserves key distinctness. -/
theorem foldl_addDpa_keys_nodup (l : List DirectPayrollAdjustment) :
    ∀ d : TechDict, (d.map (fun kv => kv.1)).Nodup →
    ((l.foldl techDictAddDpa d).map (fun kv => kv.1)).Nodup := by
  induction l with
  | nil => intro d hd; simpa using hd
  | cons a rest ih =>
    intro d hd
    rw [List.foldl_cons]
    refine ih _ ?_
    rcases keys_techDictAddDpa d a with h | ⟨h, hnm⟩
    · rwa [h]
    · rw [h]
      exact List.Nodup.append hd (List.nodup_singleton _)
        (fun x hx hx' => by
          rw [List.mem_singleton] at hx'
          exact hnm (hx' ▸ hx))

/-- The technician dict built by `_prepare_data` has pairwise-distinct keys. -/
theorem group_records_keys_nodup (invs : List Invoice)
    (dpas : List DirectPayrollAdjustment) :
    ((group_records invs dpas).map (fun kv => kv.1)).Nodup :=
  foldl_addDpa_keys_nodup dpas _
    (foldl_addInvoice_keys_nodup invs [] (by simp))

/-- In an association list with pairwise-distinct keys, membership determines
the `find?`-based lookup. -/
theorem find_of_mem_nodup {α β : Type} [DecidableEq α] {d : List (α × β)}
    (hnd : (d.map (fun kv => kv.1)).Nodup) {k : α} {v : β} (hm : (k, v) ∈ d) :
    d.find? (fun kv => kv.1 = k) = some (k, v) := by
  induction d with
  | nil => cases hm
  | cons hd tl ih =>
    rw [List.map_cons, List.nodup_cons] at hnd
    rcases List.mem_cons.mp hm with heq | htl
    · subst heq
      rw [List.find?_cons_of_pos _ (by simp)]
    · have hk : hd.1 ≠ k := by
        intro hk
        exact hnd.1 (hk ▸ List.mem_map.mpr ⟨(k, v), htl, rfl⟩)
      rw [List.find?_cons_of_neg _ (by simpa using hk)]
      exact ih hnd.2 htl

/-- Membership in the created-sheet list, characterised. -/
theorem mem_created_sheets {d : TechDict} {s : String} :
    s ∈ created_sheets d
      ↔ ∃ td, (some s, td) ∈ d ∧ needs_to_be_created (some s) td = true := by
  unfold created_sheets
  rw [List.mem_filterMap]
  constructor
  · rintro ⟨kv, hmem, hf⟩
    by_cases hn : needs_to_be_created kv.1 kv.2 = true
    · rw [if_pos hn] at hf
      refine ⟨kv.2, ?_, ?_⟩
      · rwa [← hf, Prod.mk.eta]
      · rwa [← hf]
    · rw [if_neg hn] at hf
      cases hf
  · rintro ⟨td, hmem, hn⟩
    exact ⟨(some s, td), hmem, by rw [if_pos hn]⟩

/-- C5: under the parsed groups, a report sheet is created for a technician
name if and only if the eligibility predicate of `run_merge` holds for that
name's data: name non-null AND at least one record AND (positive invoice
gross-profit sum OR at least one adjustment). -/
theorem C5_sheet_iff_eligible (invs : List Invoice)
    (dpas : List DirectPayrollAdjustment) (n : Option String) (td : TechData)
    (h : techDictGet (group_records invs dpas) n = some td) :
    (∃ s, n = some s ∧ s ∈ created_sheets (group_records invs dpas))
      ↔ needs_to_be_created n td = true := by
  unfold techDictGet at h
  obtain ⟨kv, hfind, hv⟩ := Option.map_eq_some'.mp h
  have hkv1 : kv.1 = n := by simpa using List.find?_some hfind
  have hkvmem := List.mem_of_find?_eq_some hfind
  have hkveta : kv = (n, td) := by
    rw [Prod.ext_iff]
    exact ⟨hkv1, hv⟩
  constructor
  · rintro ⟨s, rfl, hs⟩
    obtain ⟨td', hmem', hn'⟩ := mem_created_sheets.mp hs
    have : td' = td := by
      have hfind' := find_of_mem_nodup (group_records_keys_nodup invs dpas) hmem'
      rw [hfind] at hfind'
      have := congrArg (fun x => Option.map Prod.snd x) hfind'
      simp only [Option.map_some'] at this
      rw [hv] at this
      exact (Option.some_injective _ this).symm
    rwa [this] at hn'
  · intro hneeds
    have hissome : n.isSome = true := by
      unfold needs_to_be_created at hneeds
      exact (Bool.and_eq_true_iff.mp (Bool.and_eq_true_iff.mp hneeds).1).1
    obtain ⟨s, hs⟩ := Option.isSome_iff_exists.mp hissome
    refine ⟨s, hs, mem_created_sheets.mpr ⟨td, ?_, ?_⟩⟩
    · rw [← hs, ← hkveta]
      exact hkvmem
    · rwa [← hs]

/-- A technician with a single zero-gross-profit invoice. -/
def zeroGpInvoice : Invoice :=
  { technician := some "Boundary Tech", invoice_id := 1, invoice := 11,
    invoiced_on := 3, customer := some "Cust", total := 0, split := "0.00%",
    subtotal := 0, cost := 0, bonus := 0, pay_adj := 0, nc_total := 0,
    net_serv_vol := "", gp := 0, business_unit := "CMHEATING PLUM RESI SERV" }

/-- A zero-amount adjustment for the same technician. -/
def zeroAmtDpa : DirectPayrollAdjustment :=
  { technician := some "Boundary Tech", invoice_id := 2, invoice := 12,
    posted_on := 4, memo := "adj", amount := 0 }

/-- Witness for C5 at the claim's boundary: one invoice at gross profit 0.00
and no adjustments is excluded; adding one adjustment of amount 0.00 makes
the same technician included. -/
theorem C5_sheet_iff_eligible_witness :
    (¬ ∃ s, (some "Boundary Tech" : Option String) = some s
        ∧ s ∈ created_sheets (group_records [zeroGpInvoice] []))
    ∧ (∃ s, (some "Boundary Tech" : Option String) = some s
        ∧ s ∈ created_sheets (group_records [zeroGpInvoice] [zeroAmtDpa])) := by
  constructor
  · have h := C5_sheet_iff_eligible [zeroGpInvoice] [] (some "Boundary Tech")
      ⟨[zeroGpInvoice], []⟩ (by decide)
    intro hex
    have hc := h.mp hex
    have hfalse : needs_to_be_created (some "Boundary Tech")
        ⟨[zeroGpInvoice], []⟩ = false := by
      simp [needs_to_be_created, sumGp, zeroGpInvoice]
    rw [hfalse] at hc
    cases hc
  · have h := C5_sheet_iff_eligible [zeroGpInvoice] [zeroAmtDpa]
      (some "Boundary Tech") ⟨[zeroGpInvoice], [zeroAmtDpa]⟩ (by decide)
    refine h.mpr ?_
    simp [needs_to_be_created, sumGp, zeroGpInvoice]

/-! ### Claim C7 -/

/-- The header rows written before the data rows: the technician title row and
the column-label row. -/
def detailHeaderRows : Nat := 2

/-- The single total row appended after the data rows. -/
def detailTotalRows : Nat := 1

/-- The ledger rows are the retained entries, mapped to rows. -/
theorem ledger_rows_eq_filter (tbl : PyDict) (tech : String) (td : TechData) :
    (ledger_rows tbl tech td).1
      = ((items_by_date td).filter keepEntry).map
          (mkLedgerRow tbl (invoice_customer_lookup td.invoices)) := by
  unfold ledger_rows
  exact ledgerLoop_rows _ _ _ _

/-- C7: for an eligible technician, the detail sheet has exactly one row per
ledger entry retained by the zero-amount filter, plus the two header rows
and the total row; the filter drops exactly the invoice-type entries whose
amount (gross profit) is exactly zero and keeps every adjustment,
zero-amount ones included. -/
theorem C7_detail_row_count (tbl : PyDict) (tech : String) (td : TechData)
    (h : needs_to_be_created (some tech) td = true) :
    (detail_sheet tbl tech td).length
      = ((items_by_date td).filter keepEntry).length
        + detailHeaderRows + detailTotalRows
    ∧ (∀ i : Invoice, keepEntry (.inv i) = !(i.gp == 0))
    ∧ (∀ a : DirectPayrollAdjustment, keepEntry (.dpa a) = true) := by
  refine ⟨?_, ?_, ?_⟩
  · unfold detail_sheet
    rw [ledger_rows_eq_filter]
    simp only [List.length_append, List.length_map, List.length_cons,
      List.length_nil, detailHeaderRows, detailTotalRows]
    omega
  · intro i
    simp [keepEntry, Entry.isInvoice, Entry.displayAmount]
  · intro a
    simp [keepEntry, Entry.isInvoice]

/-- Witness for C7 at a concrete eligible technician (one invoice with
positive gross profit). -/
theorem C7_detail_row_count_witness :
    (detail_sheet [] "Tech One" ⟨[blankCustInvoice], []⟩).length
      = ((items_by_date ⟨[blankCustInvoice], []⟩).filter keepEntry).length
        + detailHeaderRows + detailTotalRows :=
  (C7_detail_row_count [] "Tech One" ⟨[blankCustInvoice], []⟩
    (by simp [needs_to_be_created, sumGp, blankCustInvoice])).1

/-! ### Claim C9 -/

/-- Overwriting key `k` leaves lookups of other keys unchanged. -/
theorem find_map_overwrite (tl : IntDict) (k : Int) (v : Option String)
    (n : Int) (hn : n ≠ k) :
    (tl.map (fun kv => if kv.1 = k then (k, v) else kv)).find?
        (fun kv => kv.1 = n)
      = tl.find? (fun kv => kv.1 = n) := by
  induction tl with
  | nil => rfl
  | cons hd tl ih =>
    by_cases h : hd.1 = k
    · rw [List.map_cons, if_pos h]
      rw [List.find?_cons_of_neg _ (by simp [Ne.symm hn]),
        List.find?_cons_of_neg _ (by simp [h]; exact Ne.symm hn)]
      exact ih
    · rw [List.map_cons, if_neg h]
      by_cases h2 : hd.1 = n
      · rw [List.find?_cons_of_pos _ (by simp [h2]),
          List.find?_cons_of_pos _ (by simp [h2])]
      · rw [List.find?_cons_of_neg _ (by simp [h2]),
          List.find?_cons_of_neg _ (by simp [h2])]
        exact ih

/-- Overwriting a present key makes lookups of it return the new value. -/
theorem find_map_overwrite_hit (tl : IntDict) (k : Int) (v : Option String)
    (hmem : tl.any (fun kv => kv.1 = k) = true) :
    (tl.map (fun kv => if kv.1 = k then (k, v) else kv)).find?
        (fun kv => kv.1 = k)
      = some (k, v) := by
  induction tl with
  | nil => simp at hmem
  | cons hd tl ih =>
    by_cases h : hd.1 = k
    · rw [List.map_cons, if_pos h, List.find?_cons_of_pos _ (by simp)]
    · rw [List.map_cons, if_neg h, List.find?_cons_of_neg _ (by simp [h])]
      apply ih
      simpa [h] using hmem

/-- `get` after a dict insert. -/
theorem intDictGet_insert (d : IntDict) (k : Int) (v : Option String) (n : Int) :
    intDictGet (intDictInsert d k v) n
      = if n = k then some v else intDictGet d n := by
  unfold intDictInsert intDictGet
  by_cases hany : d.any (fun kv => kv.1 = k) = true
  · rw [if_pos hany]
    by_cases hn : n = k
    · subst hn
      rw [if_pos rfl, find_map_overwrite_hit d n v hany]
      rfl
    · rw [if_neg hn, find_map_overwrite d k v n hn]
  · rw [if_neg hany]
    have hnone : d.find? (fun kv => kv.1 = k) = Option.none :=
      List.find?_eq_none.mpr (fun kv hkv hp => by
        exact hany (List.any_eq_true.mpr ⟨kv, hkv, hp⟩))
    by_cases hn : n = k
    · subst hn
      rw [if_pos rfl, List.find?_append, hnone]
      simp
    · rw [if_neg hn, List.find?_append]
      have h1 : [(k, v)].find? (fun kv => kv.1 = n) = Option.none := by
        rw [List.find?_cons_of_neg _ (by simp [Ne.symm hn])]
        rfl
      rw [h1]
      cases d.find? (fun kv => kv.1 = n) <;> rfl

/-- The dict comprehension `invoice_customer_lookup` is last-write-wins: the
value found for an invoice number is the customer field of the last invoice
in input order carrying that number. -/
theorem invoice_customer_lookup_get (invs : List Invoice) (n : Int) :
    intDictGet (invoice_customer_lookup invs) n
      = ((invs.filter (fun i => i.invoice == n)).getLast?).map
          (fun i => i.customer) := by
  induction invs using List.reverseRecOn with
  | nil => rfl
  | append_singleton invs i ih =>
    unfold invoice_customer_lookup at ih ⊢
    rw [List.foldl_concat, intDictGet_insert, List.filter_append]
    by_cases h : i.invoice = n
    · rw [if_pos h.symm]
      rw [List.filter_cons_of_pos (by simp [h]), List.filter_nil,
        List.getLast?_concat]
      rfl
    · rw [if_neg (fun hn => h hn.symm)]
      rw [List.filter_cons_of_neg (by simp [h]), List.filter_nil,
        List.append_nil]
      exact ih

/-- The customer field of the last invoice in input order carrying number `n`
(`None` when no invoice carries it or the last one's field is null). -/
def lastInvoiceCustomer (invs : List Invoice) (n : Int) : Option String :=
  match (invs.filter (fun i => i.invoice == n)).getLast? with
  | some i => i.customer
  | Option.none => Option.none

/-- The text a cell displays for a nullable string: Python `None` renders as a
blank cell, a string renders as itself. -/
def displayOptStr : Option String → String
  | Option.none => ""
  | some s => s

/-- C9: with the lookup table as actually loaded, every ledger row displays as
its customer exactly the (rendered) customer field of the last invoice in
input order sharing the row's invoice number — not the entry's own field.
In particular, when one technician has several invoices sharing a number
with different customer fields, all their rows show the last one's field. -/
theorem C9_last_write_wins (src : LookupSource) (tech : String) (td : TechData)
    (r : LedgerRow)
    (hr : r ∈ (ledger_rows (load_lookup_table src).1 tech td).1) :
    displayOptStr r.customer
      = displayOptStr (lastInvoiceCustomer td.invoices r.invoice) := by
  rw [ledger_rows_eq_filter] at hr
  obtain ⟨e, he, rfl⟩ := List.mem_map.mp hr
  have hic := invoice_customer_lookup_get td.invoices e.invoiceNo
  show displayOptStr (resolveCustomer _ _ e.invoiceNo) = _
  cases hq : intDictGet (invoice_customer_lookup td.invoices) e.invoiceNo with
  | none =>
    have hlast : lastInvoiceCustomer td.invoices e.invoiceNo = Option.none := by
      unfold lastInvoiceCustomer
      rw [hq] at hic
      cases hgl : (td.invoices.filter (fun i => i.invoice == e.invoiceNo)).getLast? with
      | none => rfl
      | some i => rw [hgl] at hic; cases hic
    simp only [mkLedgerRow]
    rw [hlast]
    simp [resolveCustomer, hq, pyDictGetD, load_lookup_table_kint_get,
      displayOptStr]
  | some c? =>
    rw [hq] at hic
    obtain ⟨i, hgl, hcust⟩ : ∃ i,
        (td.invoices.filter (fun j => j.invoice == e.invoiceNo)).getLast? = some i
        ∧ i.customer = c? := by
      cases hgl : (td.invoices.filter (fun j => j.invoice == e.invoiceNo)).getLast? with
      | none => rw [hgl] at hic; cases hic
      | some i =>
        rw [hgl] at hic
        exact ⟨i, rfl, by simpa using hic.symm⟩
    have hlast : lastInvoiceCustomer td.invoices e.invoiceNo = c? := by
      unfold lastInvoiceCustomer
      rw [hgl]
      exact hcust
    simp only [mkLedgerRow]
    rw [hlast]
    cases c? with
    | none =>
      simp [resolveCustomer, hq, pyDictGetD, load_lookup_table_kint_get,
        displayOptStr]
    | some c =>
      simp [resolveCustomer, hq, displayOptStr]

/-- Two invoices of one technician sharing invoice number 7 with different
customer fields (the second, "Cust B", is last in input order). -/
def dupInvA : Invoice :=
  { technician := some "T", invoice_id := 1, invoice := 7, invoiced_on := 5,
    customer := some "Cust A", total := 10, split := "SB", subtotal := 9,
    cost := 1, bonus := 0, pay_adj := 0, nc_total := 0, net_serv_vol := "",
    gp := 8, business_unit := "CMHEATING HVAC RESI SERV" }

def dupInvB : Invoice :=
  { technician := some "T", invoice_id := 2, invoice := 7, invoiced_on := 5,
    customer := some "Cust B", total := 12, split := "SB", subtotal := 11,
    cost := 2, bonus := 0, pay_adj := 0, nc_total := 0, net_serv_vol := "",
    gp := 9, business_unit := "CMHEATING HVAC RESI SERV" }

def dupTd : TechData := ⟨[dupInvA, dupInvB], []⟩

/-- Witness for C9: the ledger row generated for the first duplicate invoice
displays "Cust B", the customer of the last invoice sharing number 7, not
its own field "Cust A". -/
theorem C9_last_write_wins_witness :
    displayOptStr ((mkLedgerRow (load_lookup_table (.json [])).1
        (invoice_customer_lookup dupTd.invoices) (.inv dupInvA)).customer)
      = displayOptStr (lastInvoiceCustomer dupTd.invoices
          ((mkLedgerRow (load_lookup_table (.json [])).1
            (invoice_customer_lookup dupTd.invoices) (.inv dupInvA)).invoice))
    ∧ displayOptStr (lastInvoiceCustomer dupTd.invoices 7) = "Cust B" := by
  constructor
  · have hm : mkLedgerRow (load_lookup_table (.json [])).1
        (invoice_customer_lookup dupTd.invoices) (.inv dupInvA)
        ∈ (ledger_rows (load_lookup_table (.json [])).1 "T" dupTd).1 := by
      rw [ledger_rows_eq_filter]
      refine List.mem_map.mpr ⟨.inv dupInvA, ?_, rfl⟩
      refine List.mem_filter.mpr ⟨?_, by decide⟩
      rw [items_by_date_of_sorted (by decide)]
      decide
    exact C9_last_write_wins (.json []) "T" dupTd _ hm
  · decide

/-! ### Claim C10 -/

/-- An adjustment whose invoice number 5 matches no invoice of its technician
but is present in the lookup source. -/
def lonelyDpa : DirectPayrollAdjustment :=
  { technician := some "T", invoice_id := 3, invoice := 5, posted_on := 12,
    memo := "adj memo", amount := 25 }

/-- C10, counterexample: invoice id 5 is a key of the lookup source mapping
(to "Acme Plumbing"), and `lonelyDpa` carries number 5, yet its ledger row
is written with a blank customer and the missing-customer warning fires
— the claim promised a resolved customer name whenever the number matches a
key of the lookup table. -/
theorem C10_counterexample :
    pyDictGet (parse_lookup_wb acmeLookupRows).1 (.kint 5)
        = some (some "Acme Plumbing")
    ∧ (ledger_rows (load_lookup_table (.xlsx (some acmeLookupRows))).1 "T"
        ⟨[], [lonelyDpa]⟩).1
      = [{ invoice := 5, dateStr := "12", customer := some "",
           memo := "adj memo", amount := 25 }]
    ∧ (ledger_rows (load_lookup_table (.xlsx (some acmeLookupRows))).1 "T"
        ⟨[], [lonelyDpa]⟩).2
      = [.missingCustomer 5 "T"] := by
  refine ⟨by decide, ?_, ?_⟩ <;>
    · rw [ledger_rows_of_sorted _ _ _ (by decide)]
      decide

/-- C10, amended: an adjustment's row resolves its customer from the invoices
of the same technician (last-write-wins by invoice number) whenever one of
them shares its number with a non-null customer field; the lookup-table
fallback never resolves (the loaded table is string-keyed while the number
is an integer), so otherwise the row is written with the empty string and
the same missing-customer warning as an invoice would trigger. -/
theorem C10_amended_adjustment_resolution (src : LookupSource) (tech : String)
    (invs : List Invoice) (dpas : List DirectPayrollAdjustment)
    (a : DirectPayrollAdjustment) (ha : a ∈ dpas) :
    (mkLedgerRow (load_lookup_table src).1 (invoice_customer_lookup invs)
        (.dpa a)
      ∈ (ledger_rows (load_lookup_table src).1 tech ⟨invs, dpas⟩).1)
    ∧ (∀ c, intDictGet (invoice_customer_lookup invs) a.invoice = some (some c) →
        (mkLedgerRow (load_lookup_table src).1 (invoice_customer_lookup invs)
          (.dpa a)).customer = some c)
    ∧ ((intDictGet (invoice_customer_lookup invs) a.invoice).join = Option.none →
        (mkLedgerRow (load_lookup_table src).1 (invoice_customer_lookup invs)
          (.dpa a)).customer = some ""
        ∧ LogEntry.missingCustomer a.invoice tech
            ∈ (ledger_rows (load_lookup_table src).1 tech ⟨invs, dpas⟩).2) := by
  have hmemItems : Entry.dpa a ∈ (items_by_date ⟨invs, dpas⟩).filter keepEntry := by
    refine List.mem_filter.mpr ⟨?_, by simp [keepEntry, Entry.isInvoice]⟩
    refine List.mem_mergeSort.mpr ?_
    exact List.mem_append.mpr (Or.inr (List.mem_map.mpr ⟨a, ha, rfl⟩))
  refine ⟨?_, ?_, ?_⟩
  · rw [ledger_rows_eq_filter]
    exact List.mem_map.mpr ⟨.dpa a, hmemItems, rfl⟩
  · intro c hc
    simp [mkLedgerRow, resolveCustomer, Entry.invoiceNo, hc]
  · intro hj
    have hres : resolveCustomer (load_lookup_table src).1
        (invoice_customer_lookup invs) a.invoice = some "" := by
      unfold resolveCustomer
      cases hq : intDictGet (invoice_customer_lookup invs) a.invoice with
      | none =>
        simp [pyDictGetD, load_lookup_table_kint_get]
      | some c? =>
        cases c? with
        | none => simp [pyDictGetD, load_lookup_table_kint_get]
        | some c => rw [hq] at hj; cases hj
    constructor
    · simpa [mkLedgerRow, Entry.invoiceNo] using hres
    · unfold ledger_rows
      rw [ledgerLoop_logs]
      refine List.mem_filterMap.mpr ⟨.dpa a, hmemItems, ?_⟩
      simp [warnOf, Entry.invoiceNo, hres]

/-- Witness for C10's amended claim: the concrete adjustment `lonelyDpa` with
no same-technician invoices is written blank with the warning, even though
its number is present in the lookup source. -/
theorem C10_amended_adjustment_resolution_witness :
    (mkLedgerRow (load_lookup_table (.xlsx (some acmeLookupRows))).1
        (invoice_customer_lookup []) (.dpa lonelyDpa)).customer = some ""
    ∧ LogEntry.missingCustomer lonelyDpa.invoice "T"
        ∈ (ledger_rows (load_lookup_table (.xlsx (some acmeLookupRows))).1 "T"
            ⟨[], [lonelyDpa]⟩).2 :=
  (C10_amended_adjustment_resolution (.xlsx (some acmeLookupRows)) "T" []
    [lonelyDpa] lonelyDpa (by decide)).2.2 (by decide)

/-! ### Claim C6 -/

def dummyLedgerRow : LedgerRow :=
  { invoice := 0, dateStr := "", customer := Option.none, memo := "", amount := 0 }

/-- Indexing two rows past the two header rows. -/
theorem get?_cons_cons_add_two {α : Type} (a b : α) (l : List α) (k : Nat) :
    (a :: b :: l).get? (k + 2) = l.get? k := rfl

/-- The detail-sheet cell at data row `k` (0-based; sheet row `k + 3`) and
column `j + 1` is the `j`-th of the five literal cells written for the
`k`-th retained ledger row. -/
theorem detail_sheet_data_cell (tbl : PyDict) (tech : String) (td : TechData)
    (k j : Nat) (hk : k < (ledger_rows tbl tech td).1.length) :
    cellAt (detail_sheet tbl tech td) (k + 3) (j + 1)
      = (rowCells ((ledger_rows tbl tech td).1.getD k dummyLedgerRow)).getD
          j CellVal.blank := by
  have hform : detail_sheet tbl tech td
      = titleRowCells tech :: labelRowCells ::
        ((ledger_rows tbl tech td).1.map rowCells
          ++ [totalRowCells (2 + (ledger_rows tbl tech td).1.length)]) := by
    unfold detail_sheet
    simp
  have hg : (ledger_rows tbl tech td).1.get? k
      = some ((ledger_rows tbl tech td).1.getD k dummyLedgerRow) := by
    rw [List.getD_eq_get?]
    cases hq : (ledger_rows tbl tech td).1.get? k with
    | none => exact absurd (List.get?_eq_none.mp hq) (by omega)
    | some r => rfl
  have h31 : k + 3 - 1 = k + 2 := rfl
  unfold cellAt
  rw [hform, h31, get?_cons_cons_add_two,
    List.get?_append (by simpa using hk), List.get?_map, hg]
  simp only [Option.map_some', Option.some_bind]
  rw [Nat.add_sub_cancel]
  exact (List.getD_eq_get? _ _ _).symm

/-- The master's mirrored cell at (0-based) retained entry `k`, column
`j + 1`, is the guarded reference formula pointing at the detail sheet's
row `k + 3`, same column. -/
theorem master_mirror_cell (tbl : PyDict) (tech : String) (td : TechData)
    (k j : Nat) (hk : k < (ledger_rows tbl tech td).1.length) (hj : j < 5) :
    cellAt (master_mirror_rows tbl tech td) (k + 1) (j + 1)
      = CellVal.fIfBlankRef ⟨tech, j + 1, k + 3⟩ := by
  unfold cellAt master_mirror_rows mirrorRowCells
  rw [Nat.add_sub_cancel, List.get?_map, List.get?_range hk]
  simp only [Option.map_some', Option.some_bind]
  rw [Nat.add_sub_cancel, List.get?_map, List.get?_range hj]
  rfl

/-- C6: the master sheet's mirrored row's first five cells are live formula
references (`=IF(ref="","",ref)`) back to the corresponding detail-sheet
cells, not copied literals; each reference evaluates to the referenced
detail cell's displayed value, rendering as the empty string — never the
literal zero — when the referenced cell is blank; hence, when the customer
cell of the detail row is blank, the blank-keyed missing-customer
conditional rule still fires on the computed references. -/
theorem C6_master_mirror_refs (tbl : PyDict) (tech : String) (td : TechData)
    (k j : Nat) (hk : k < (ledger_rows tbl tech td).1.length) (hj : j < 5) :
    cellAt (master_mirror_rows tbl tech td) (k + 1) (j + 1)
        = CellVal.fIfBlankRef ⟨tech, j + 1, k + 3⟩
    ∧ (cellAt (master_mirror_rows tbl tech td) (k + 1) (j + 1)).isFormula = true
    ∧ evalIfBlankRef (detail_sheet tbl tech td) ⟨tech, j + 1, k + 3⟩
        = (if excelBlank (cellAt (detail_sheet tbl tech td) (k + 3) (j + 1))
            then XVal.xstr ""
            else refValue (cellAt (detail_sheet tbl tech td) (k + 3) (j + 1)))
    ∧ (excelBlank (cellAt (detail_sheet tbl tech td) (k + 3) (j + 1)) = true →
        evalIfBlankRef (detail_sheet tbl tech td) ⟨tech, j + 1, k + 3⟩
          ≠ XVal.xnum 0)
    ∧ (excelBlank (cellAt (detail_sheet tbl tech td) (k + 3) 3) = true →
        isBlankRuleFires
          (evalIfBlankRef (detail_sheet tbl tech td) ⟨tech, 1, k + 3⟩)
          (evalIfBlankRef (detail_sheet tbl tech td) ⟨tech, 3, k + 3⟩)
          = true) := by
  refine ⟨master_mirror_cell tbl tech td k j hk hj, ?_, rfl, ?_, ?_⟩
  · rw [master_mirror_cell tbl tech td k j hk hj]
    rfl
  · intro hblank
    unfold evalIfBlankRef
    simp only
    rw [if_pos hblank]
    intro hcontra
    cases hcontra
  · intro hblank
    have hA : cellAt (detail_sheet tbl tech td) (k + 3) 1
        = CellVal.num (((ledger_rows tbl tech td).1.getD k dummyLedgerRow).invoice) := by
      have h1 := detail_sheet_data_cell tbl tech td k 0 hk
      simpa [rowCells] using h1
    unfold isBlankRuleFires evalIfBlankRef
    simp only
    rw [if_pos hblank]
    rw [hA, if_neg (by simp [excelBlank])]
    simp [refValue, xLenPos, xTrimEmpty]

/-- Witness for C6 at a concrete technician whose single retained row has a
blank customer cell (entry 0, customer column 3). -/
theorem C6_master_mirror_refs_witness :
    cellAt (master_mirror_rows [] "Tech One" ⟨[blankCustInvoice], []⟩) 1 3
        = CellVal.fIfBlankRef ⟨"Tech One", 3, 3⟩
    ∧ (cellAt (master_mirror_rows [] "Tech One" ⟨[blankCustInvoice], []⟩) 1 3).isFormula
        = true
    ∧ evalIfBlankRef (detail_sheet [] "Tech One" ⟨[blankCustInvoice], []⟩)
          ⟨"Tech One", 3, 3⟩
        = (if excelBlank (cellAt (detail_sheet [] "Tech One"
              ⟨[blankCustInvoice], []⟩) 3 3)
            then XVal.xstr ""
            else refValue (cellAt (detail_sheet [] "Tech One"
              ⟨[blankCustInvoice], []⟩) 3 3))
    ∧ (excelBlank (cellAt (detail_sheet [] "Tech One"
          ⟨[blankCustInvoice], []⟩) 3 3) = true →
        evalIfBlankRef (detail_sheet [] "Tech One" ⟨[blankCustInvoice], []⟩)
            ⟨"Tech One", 3, 3⟩
          ≠ XVal.xnum 0)
    ∧ (excelBlank (cellAt (detail_sheet [] "Tech One"
          ⟨[blankCustInvoice], []⟩) 3 3) = true →
        isBlankRuleFires
          (evalIfBlankRef (detail_sheet [] "Tech One" ⟨[blankCustInvoice], []⟩)
            ⟨"Tech One", 1, 3⟩)
          (evalIfBlankRef (detail_sheet [] "Tech One" ⟨[blankCustInvoice], []⟩)
            ⟨"Tech One", 3, 3⟩)
          = true) :=
  C6_master_mirror_refs [] "Tech One" ⟨[blankCustInvoice], []⟩ 0 2
    (by rw [ledger_rows_of_sorted _ _ _ (by decide)]; decide) (by omega)

/-! ### Claim C2 -/

/-- The standard 15-cell `Invoices` header with the 7th cell replaced. -/
def invHeaderWith7 (h7 : String) : List PyVal :=
  [.str "Technician", .str "Invoice Id", .str "Invoice", .str "Invoiced On",
   .str "Customer", .str "Total", .str h7, .str "Subtotal", .str "Cost",
   .str "Bonus", .str "Pay Adj.", .str "NC Total", .str "Net Serv. Vol.",
   .str "GP", .str "Business Unit"]

/-- `delete_cols` is the identity on rows that do not reach the column. -/
theorem deleteCol_of_short (idx : Nat) (l : List PyVal) (h : l.length ≤ idx - 1) :
    deleteCol idx l = l := by
  unfold deleteCol
  rw [List.take_of_length_le h, List.drop_eq_nil_of_le (by omega),
    List.append_nil]

/-- Reduction of `Except` binds (the `do` blocks of the parser layer). -/
theorem exceptBind_ok {ε α β : Type} (a : α) (f : α → Except ε β) :
    (Except.ok a : Except ε α) >>= f = f a := rfl

theorem exceptBind_error {ε α β : Type} (e : ε) (f : α → Except ε β) :
    (Except.error e : Except ε α) >>= f = Except.error e := rfl

/-- Keys of a dict insert: the old keys, or the inserted key. -/
theorem strDictInsert_keys (d : RawRecord) (kk : String) (v : PyVal) :
    ∀ k ∈ (strDictInsert d kk v).map (fun kv => kv.1),
      k ∈ d.map (fun kv => kv.1) ∨ k = kk := by
  intro k hk
  unfold strDictInsert at hk
  by_cases h : d.any (fun kv => kv.1 = kk) = true
  · rw [if_pos h, List.map_map] at hk
    obtain ⟨kv, hkv, hfk⟩ := List.mem_map.mp hk
    by_cases hkk : kv.1 = kk
    · right
      rw [← hfk]
      simp [hkk]
    · left
      rw [← hfk]
      simp only [Function.comp_apply, if_neg hkk]
      exact List.mem_map.mpr ⟨kv, hkv, rfl⟩
  · rw [if_neg h, List.map_append, List.mem_append] at hk
    rcases hk with hk | hk
    · exact Or.inl hk
    · right
      simpa using hk

/-- Keys of the positional row dict come from the header-key list. -/
theorem buildDataDict_keys (keys : List String) (cells : List PyVal)
    (d : RawRecord) (h : buildDataDict keys cells = .ok d) :
    ∀ k ∈ d.map (fun kv => kv.1), k ∈ keys := by
  unfold buildDataDict at h
  by_cases hl : cells.length > keys.length
  · rw [if_pos hl] at h
    cases h
  · rw [if_neg hl] at h
    have hd : d = (keys.zip cells).foldl
        (fun d kv => strDictInsert d kv.1 kv.2) [] := by
      cases h
      rfl
    subst hd
    have hfold : ∀ (ps : List (String × PyVal)) (init : RawRecord),
        ∀ k ∈ ((ps.foldl (fun d kv => strDictInsert d kv.1 kv.2) init).map
          (fun kv => kv.1)),
        k ∈ init.map (fun kv => kv.1) ∨ k ∈ ps.map (fun kv => kv.1) := by
      intro ps
      induction ps with
      | nil => intro init k hk; exact Or.inl hk
      | cons p rest ih =>
        intro init k hk
        rw [List.foldl_cons] at hk
        rcases ih (strDictInsert init p.1 p.2) k hk with hh | hh
        · rcases strDictInsert_keys init p.1 p.2 k hh with hh2 | hh2
          · exact Or.inl hh2
          · exact Or.inr (by simp [hh2])
        · exact Or.inr (List.mem_cons_of_mem _ hh)
    intro k hk
    rcases hfold (keys.zip cells) [] k hk with hh | hh
    · simp at hh
    · obtain ⟨⟨a, b⟩, hab, rfl⟩ := List.mem_map.mp hh
      exact (List.mem_zip hab).1

/-- With the seventh header key not normalizing to `split`, the `Invoice`
dataclass call on any row of at most header width raises `TypeError` (the
keyword set lacks the required `split` field). -/
theorem mkRawInvoice_missing_split (h7 : String) (hkey : pyKeyNorm h7 ≠ "split")
    (cells : List PyVal) (hlen : cells.length ≤ 15) :
    mkRawInvoice
      ["technician", "invoice_id", "invoice", "invoiced_on", "customer",
       "total", pyKeyNorm h7, "subtotal", "cost", "bonus", "pay_adj",
       "nc_total", "net_serv_vol", "gp", "business_unit"] cells
      = .error .typeError := by
  unfold mkRawInvoice
  cases hb : buildDataDict
      ["technician", "invoice_id", "invoice", "invoiced_on", "customer",
       "total", pyKeyNorm h7, "subtotal", "cost", "bonus", "pay_adj",
       "nc_total", "net_serv_vol", "gp", "business_unit"] cells with
  | error e =>
    exfalso
    unfold buildDataDict at hb
    rw [if_neg (by simp; omega)] at hb
    cases hb
  | ok d =>
    have hkeys := buildDataDict_keys _ _ _ hb
    have hnomem : "split" ∉ d.map (fun kv => kv.1) := by
      intro hcon
      have hmem := hkeys "split" hcon
      simp only [List.mem_cons, List.not_mem_nil, or_false] at hmem
      rcases hmem with h|h|h|h|h|h|h|h|h|h|h|h|h|h|h
      all_goals first
        | exact hkey h.symm
        | exact absurd h (by decide)
    have hse : setEqStr (d.map (fun kv => kv.1)) invoiceFields = false := by
      unfold setEqStr
      have hall : invoiceFields.all
          (fun k => (d.map (fun kv => kv.1)).contains k) = false :=
        List.all_eq_false.mpr
          ⟨"split", by decide, by simpa using hnomem⟩
      rw [hall, Bool.and_false]
    rw [exceptBind_ok, hse]
    rfl

/-- C2, amended: when the Invoices sheet's 7th header cell does not
key-normalize to `split` (e.g. reads "Split Pct") and the sheet has at
least one data row of at most header width, the run does abort and no
records are emitted — but not through the claimed report: constructing the
first `Invoice` raises an uncaught `TypeError` (the keyword derived from
the bad header cell leaves the required `split` field unfilled), before
header validation ever runs, so no `HeaderMismatch` with the column index
and both texts is reported anywhere in the log. -/
theorem C2_amended_header_mismatch_aborts (src : LookupSource) (h7 : String)
    (row1 : List PyVal) (rows : List (List PyVal))
    (dpaSheet : List (List PyVal))
    (hkey : pyKeyNorm h7 ≠ "split") (hlen : row1.length ≤ 16) :
    (run_init src ⟨some (invHeaderWith7 h7 :: row1 :: rows), some dpaSheet⟩).err
        = some PyError.typeError
    ∧ (run_init src
        ⟨some (invHeaderWith7 h7 :: row1 :: rows), some dpaSheet⟩).state
        = Option.none
    ∧ (run_init src
        ⟨some (invHeaderWith7 h7 :: row1 :: rows), some dpaSheet⟩).logs.all
        (fun l => !l.isHeaderMismatch) = true := by
  have hhdr : (invHeaderWith7 h7).mapM pyKeyNormVal
      = Except.ok ["technician", "invoice_id", "invoice", "invoiced_on",
          "customer", "total", pyKeyNorm h7, "subtotal", "cost", "bonus",
          "pay_adj", "nc_total", "net_serv_vol", "gp", "business_unit"] := rfl
  have hrow : mkRawInvoice
      ["technician", "invoice_id", "invoice", "invoiced_on", "customer",
       "total", pyKeyNorm h7, "subtotal", "cost", "bonus", "pay_adj",
       "nc_total", "net_serv_vol", "gp", "business_unit"]
      (deleteCol 16 row1) = .error .typeError := by
    refine mkRawInvoice_missing_split h7 hkey _ ?_
    simp only [deleteCol, List.length_append, List.length_take,
      List.length_drop]
    omega
  have hprep : prepInvoices
      ((invHeaderWith7 h7 :: row1 :: rows).map (deleteCol 16))
      = .error .typeError := by
    rw [List.map_cons, List.map_cons,
      deleteCol_of_short 16 (invHeaderWith7 h7) (by simp [invHeaderWith7])]
    show (do
        let keys ← (invHeaderWith7 h7).mapM pyKeyNormVal
        (deleteCol 16 row1 :: rows.map (deleteCol 16)).mapM
          (mkRawInvoice keys))
      = Except.error PyError.typeError
    rw [hhdr, exceptBind_ok, List.mapM_cons, hrow, exceptBind_error]
  refine ⟨?_, ?_, ?_⟩
  · simp only [run_init, hprep]
  · simp only [run_init, hprep]
  · simp only [run_init, hprep]
    exact load_lookup_table_no_header_mismatch src

/-- The claim's concrete scenario: the standard workbook whose Invoices sheet
reads "Split Pct" in header column 7 and has one data row. -/
def splitPctWorkbook : Workbook :=
  ⟨some [invHeaderWith7 "Split Pct", List.replicate 15 PyVal.none],
   some [dpaExpectedHeader.map PyVal.str]⟩

/-- C2, counterexample: on a workbook whose Invoices sheet has "Split Pct" in
header column 7 (which does not normalize to "Split %") and one data row,
the run does abort with no records — but with an uncaught `TypeError`, and
no `HeaderMismatch` naming the column and both texts appears anywhere in
the emitted log, contrary to the claim's required report. -/
theorem C2_counterexample_no_mismatch_report :
    pyNormCell (PyVal.str "Split Pct") ≠ normString "Split %"
    ∧ (run_init (.json []) splitPctWorkbook).err = some PyError.typeError
    ∧ (run_init (.json []) splitPctWorkbook).state = Option.none
    ∧ (run_init (.json []) splitPctWorkbook).logs = [] := by
  refine ⟨by decide, by decide, by decide, by decide⟩

/-- Witness for C2's amended claim at the concrete "Split Pct" workbook. -/
theorem C2_amended_header_mismatch_aborts_witness :
    (run_init (.json [])
        ⟨some (invHeaderWith7 "Split Pct"
            :: List.replicate 15 PyVal.none :: []),
          some [dpaExpectedHeader.map PyVal.str]⟩).err
        = some PyError.typeError
    ∧ (run_init (.json [])
        ⟨some (invHeaderWith7 "Split Pct"
            :: List.replicate 15 PyVal.none :: []),
          some [dpaExpectedHeader.map PyVal.str]⟩).state
        = Option.none
    ∧ (run_init (.json [])
        ⟨some (invHeaderWith7 "Split Pct"
            :: List.replicate 15 PyVal.none :: []),
          some [dpaExpectedHeader.map PyVal.str]⟩).logs.all
        (fun l => !l.isHeaderMismatch) = true :=
  C2_amended_header_mismatch_aborts (.json []) "Split Pct"
    (List.replicate 15 PyVal.none) [] [dpaExpectedHeader.map PyVal.str]
    (by decide) (by decide)

/-- Supporting check of the embedded validator: on the "Split Pct" header,
`validate_header_row` does produce exactly the mismatch report the spec
describes — 1-based column 7 with both the expected and the actual text.
(In the abort scenario of C2 this code is never reached.) -/
theorem validate_header_row_split_pct :
    validate_header_row invExpectedHeader (invHeaderWith7 "Split Pct") "Invoices"
      = [.headerMismatch "Invoices" 7 "Split %" "Split Pct"] := by decide

/-- Supporting check: with the same bad header but zero data rows, no record
construction happens, so construction succeeds, the mismatch is logged —
and the run continues (no exception), contradicting the abort the claim
requires on this path as well. -/
theorem run_init_header_only_continues :
    (run_init (.json [])
        ⟨some [invHeaderWith7 "Split Pct"],
          some [dpaExpectedHeader.map PyVal.str]⟩).err = Option.none
    ∧ (run_init (.json [])
        ⟨some [invHeaderWith7 "Split Pct"],
          some [dpaExpectedHeader.map PyVal.str]⟩).logs
      = [.headerMismatch "Invoices" 7 "Split %" "Split Pct"] := by
  refine ⟨by decide, by decide⟩
